import Mathlib

/-!
Shallow embedding of the string-analyzer service core:
`src/analyzer.py` (function `analyze_string`) and `src/nlp_parser.py`
(functions `parse_natural_language_query` and `validate_parsed_filters`).

Strings are modelled as Lean `String` / `List Char` (Python strings are
sequences of Unicode code points).  Case folding is modelled by the ASCII
`Char.toLower`, which agrees with Python `str.lower` on ASCII input.
-/

/-! ### Python character helpers -/

/-- Python `str.lower()` applied characterwise (ASCII case folding). -/
def pyLower (l : List Char) : List Char := l.map Char.toLower

/-- Whitespace as recognised by Python `str.split()` with no argument
(ASCII/Latin-1 whitespace characters). -/
def pyIsSpace (c : Char) : Bool :=
  c = ' ' || c = '\t' || c = '\n' || c = '\r' ||
  c = Char.ofNat 11 || c = Char.ofNat 12 ||
  c = Char.ofNat 28 || c = Char.ofNat 29 || c = Char.ofNat 30 || c = Char.ofNat 31 ||
  c = Char.ofNat 133 || c = Char.ofNat 160

/-! ### `value.split()` — generic whitespace splitting -/

/-- Accumulator-based splitter: `acc` holds the (reversed) current word. -/
def splitAux : List Char → List Char → List (List Char)
  | [], [] => []
  | [], acc => [acc.reverse]
  | c :: rest, acc =>
      if pyIsSpace c then
        match acc with
        | [] => splitAux rest []
        | _ :: _ => acc.reverse :: splitAux rest []
      else splitAux rest (c :: acc)

/-- Python `value.split()` (no argument): split on runs of whitespace,
discarding leading and trailing whitespace. -/
def pySplit (l : List Char) : List (List Char) := splitAux l []

/-! ### Character frequency map

Python builds a `dict` by `map[char] = map.get(char, 0) + 1`; an existing
key is updated in place, a new key is appended at the end.  We model the
insertion-ordered dict as an association list. -/

/-- One iteration of the frequency loop: increment the entry for `c`,
appending a fresh entry at the end when `c` is not yet a key. -/
def freqUpdate (m : List (Char × Nat)) (c : Char) : List (Char × Nat) :=
  match m with
  | [] => [(c, 1)]
  | (k, v) :: rest => if k = c then (k, v + 1) :: rest else (k, v) :: freqUpdate rest c

/-- `dict.get(c, 0)` on the association list (first matching key). -/
def freqGet (m : List (Char × Nat)) (c : Char) : Nat :=
  match m with
  | [] => 0
  | (k, v) :: rest => if k = c then v else freqGet rest c

/-! ### SHA-256 (FIPS 180-4) over the UTF-8 bytes of the input

`hashlib.sha256(value.encode()).hexdigest()` from the source.  Bytes and
32-bit words are `Nat`s kept below `2^8` / `2^32`. -/

/-- UTF-8 encoding of one code point, as a list of byte values. -/
def utf8Bytes (c : Char) : List Nat :=
  let n := c.toNat
  if n < 128 then [n]
  else if n < 2048 then [192 + n / 64, 128 + n % 64]
  else if n < 65536 then [224 + n / 4096, 128 + (n / 64) % 64, 128 + n % 64]
  else [240 + n / 262144, 128 + (n / 4096) % 64, 128 + (n / 64) % 64, 128 + n % 64]

/-- Python `value.encode()` (UTF-8). -/
def encodeUTF8 (l : List Char) : List Nat := (l.map utf8Bytes).flatten

/-- Truncation to a 32-bit word. -/
def w32 (n : Nat) : Nat := n % 4294967296

/-- Right rotation of a 32-bit word by `k` places. -/
def rotr32 (n k : Nat) : Nat := w32 (n / 2 ^ k + n % 2 ^ k * 2 ^ (32 - k))

/-- Bitwise complement of a 32-bit word. -/
def not32 (n : Nat) : Nat := Nat.xor n 4294967295

/-- The 64 SHA-256 round constants (fractional parts of cube roots of the
first 64 primes). -/
def sha256K : List Nat :=
  [1116352408, 1899447441, 3049323471, 3921009573, 961987163, 1508970993,
   2453635748, 2870763221, 3624381080, 310598401, 607225278, 1426881987,
   1925078388, 2162078206, 2614888103, 3248222580, 3835390401, 4022224774,
   264347078, 604807628, 770255983, 1249150122, 1555081692, 1996064986,
   2554220882, 2821834349, 2952996808, 3210313671, 3336571891, 3584528711,
   113926993, 338241895, 666307205, 773529912, 1294757372, 1396182291,
   1695183700, 1986661051, 2177026350, 2456956037, 2730485921, 2820302411,
   3259730800, 3345764771, 3516065817, 3600352804, 4094571909, 275423344,
   430227734, 506948616, 659060556, 883997877, 958139571, 1322822218,
   1537002063, 1747873779, 1955562222, 2024104815, 2227730452, 2361852424,
   2428436474, 2756734187, 3204031479, 3329325298]

/-- The 8 initial SHA-256 hash words. -/
def sha256H0 : List Nat :=
  [1779033703, 3144134277, 1013904242, 2773480762,
   1359893119, 2600822924, 528734635, 1541459225]

/-- Big-endian byte decomposition, `k` bytes. -/
def toBytesBE : Nat → Nat → List Nat
  | 0, _ => []
  | k + 1, n => toBytesBE k (n / 256) ++ [n % 256]

/-- SHA-256 message padding: append `0x80`, zero bytes to 56 mod 64, then
the 64-bit big-endian bit length. -/
def sha256Pad (msg : List Nat) : List Nat :=
  let L := msg.length
  let z := (119 - L % 64) % 64
  msg ++ [128] ++ List.replicate z 0 ++ toBytesBE 8 (L * 8)

/-- Group bytes into big-endian 32-bit words. -/
def bytesToWords : List Nat → List Nat
  | b0 :: b1 :: b2 :: b3 :: rest => (((b0 * 256 + b1) * 256 + b2) * 256 + b3) :: bytesToWords rest
  | _ => []

/-- Split a byte list into 64-byte blocks. -/
def toBlocks (l : List Nat) : List (List Nat) :=
  if h : l = [] then [] else l.take 64 :: toBlocks (l.drop 64)
termination_by l.length
decreasing_by
  simp only [List.length_drop]
  exact Nat.sub_lt (List.length_pos.mpr h) (by decide)

/-- One step of the message-schedule extension. -/
def schedStep (ws : List Nat) : List Nat :=
  let t := ws.length
  let x := Nat.xor (Nat.xor (rotr32 (ws.getD (t - 15) 0) 7) (rotr32 (ws.getD (t - 15) 0) 18))
    (ws.getD (t - 15) 0 / 2 ^ 3)
  let y := Nat.xor (Nat.xor (rotr32 (ws.getD (t - 2) 0) 17) (rotr32 (ws.getD (t - 2) 0) 19))
    (ws.getD (t - 2) 0 / 2 ^ 10)
  ws ++ [w32 (y + ws.getD (t - 7) 0 + x + ws.getD (t - 16) 0)]

/-- Extend the 16 block words to the 64-entry message schedule. -/
def sha256Schedule (ws : List Nat) : List Nat := Nat.iterate schedStep 48 ws

/-- One SHA-256 compression round on the 8-word state. -/
def sha256Round (w k : Nat) (st : List Nat) : List Nat :=
  match st with
  | [a, b, c, d, e, f, g, h] =>
    let S1 := Nat.xor (Nat.xor (rotr32 e 6) (rotr32 e 11)) (rotr32 e 25)
    let ch := Nat.xor (Nat.land e f) (Nat.land (not32 e) g)
    let t1 := w32 (h + S1 + ch + k + w)
    let S0 := Nat.xor (Nat.xor (rotr32 a 2) (rotr32 a 13)) (rotr32 a 22)
    let mj := Nat.xor (Nat.xor (Nat.land a b) (Nat.land a c)) (Nat.land b c)
    let t2 := w32 (S0 + mj)
    [w32 (t1 + t2), a, b, c, w32 (d + t1), e, f, g]
  | _ => st

/-- Process one 64-byte block against the running 8-word hash value. -/
def sha256Block (H : List Nat) (block : List Nat) : List Nat :=
  let ws := sha256Schedule (bytesToWords block)
  let st := (List.range 64).foldl
    (fun st t => sha256Round (ws.getD t 0) (sha256K.getD t 0) st) H
  List.zipWith (fun h v => w32 (h + v)) H st

/-- Lowercase hexadecimal digit. -/
def hexDigit (n : Nat) : Char :=
  if n < 10 then Char.ofNat (48 + n) else Char.ofNat (87 + n)

/-- Lowercase hexadecimal rendering, `k` digits, most significant first. -/
def toHex : Nat → Nat → List Char
  | 0, _ => []
  | k + 1, n => toHex k (n / 16) ++ [hexDigit (n % 16)]

/-- `hashlib.sha256(bytes).hexdigest()`: the 64-character lowercase hex
digest of a byte list. -/
def sha256Hex (msg : List Nat) : List Char :=
  (((toBlocks (sha256Pad msg)).foldl sha256Block sha256H0).map (toHex 8)).flatten

/-! ### `analyze_string` (src/analyzer.py) -/

/-- The record returned by `analyze_string`. -/
structure AnalysisResult where
  length : Nat
  is_palindrome : Bool
  unique_characters : Nat
  word_count : Nat
  sha256_hash : List Char
  character_frequency_map : List (Char × Nat)
deriving DecidableEq, Repr

/-- `analyze_string(value)` from `src/analyzer.py`:
`length = len(value)`;
`cleaned = value.replace(" ", "").lower()`, palindrome iff `cleaned`
equals its reverse; `unique_characters = len(set(value))`;
`word_count = len(value.split())`;
`sha256_hash = hashlib.sha256(value.encode()).hexdigest()`;
`character_frequency_map` built by `m[c] = m.get(c, 0) + 1` over `value`. -/
def analyze_string (value : String) : AnalysisResult :=
  let cleaned := (value.data.filter (fun c => c ≠ ' ')).map Char.toLower
  { length := value.data.length
    is_palindrome := decide (cleaned = cleaned.reverse)
    unique_characters := value.data.dedup.length
    word_count := (pySplit value.data).length
    sha256_hash := sha256Hex (encodeUTF8 value.data)
    character_frequency_map := value.data.foldl freqUpdate [] }

/-! ### `parse_natural_language_query` (src/nlp_parser.py) -/

/-- Python substring containment `pat in s`. -/
def hasSubstr (pat : List Char) : List Char → Bool
  | [] => decide (pat = [])
  | c :: rest => pat.isPrefixOf (c :: rest) || hasSubstr pat rest

/-- ASCII decimal digit (`\d` on the ASCII queries the parser handles). -/
def isAsciiDigit (c : Char) : Bool := 48 ≤ c.toNat && c.toNat ≤ 57

/-- Numeric value of a digit string. -/
def digitsVal (l : List Char) : Nat := l.foldl (fun a c => 10 * a + (c.toNat - 48)) 0

/-- Try to match literal `lit` followed by one or more digits at the head
of `s`; return the captured number. -/
def matchLitNumAt (lit s : List Char) : Option Nat :=
  if lit.isPrefixOf s then
    match (s.drop lit.length).takeWhile isAsciiDigit with
    | [] => none
    | d :: ds => some (digitsVal (d :: ds))
  else none

/-- `re.search` for the pattern `<lit>(\d+)`: first position where the
literal is followed by at least one digit; captures the maximal digit run. -/
def searchLitNum (lit : List Char) : List Char → Option Nat
  | [] => none
  | c :: rest =>
      match matchLitNumAt lit (c :: rest) with
      | some n => some n
      | none => searchLitNum lit rest

/-- Greedy optional literal with backtracking: try the continuation after
consuming `opt` when it matches, fall back to not consuming it. -/
def tryOpt (opt : List Char) (k : List Char → Option Char) (s : List Char) : Option Char :=
  match (if opt.isPrefixOf s then k (s.drop opt.length) else none) with
  | some c => some c
  | none => k s

/-- Tail of the letter pattern: a space then a single lowercase letter. -/
def spaceLetterAt (s : List Char) : Option Char :=
  match s with
  | ' ' :: c :: _ => if 97 ≤ c.toNat && c.toNat ≤ 122 then some c else none
  | _ => none

/-- Match `contain(?:ing)?(?: the)?(?: letter)? ([a-z])` at the head of `s`. -/
def matchContainAt (s : List Char) : Option Char :=
  if ("contain".data).isPrefixOf s then
    tryOpt ("ing".data) (tryOpt (" the".data) (tryOpt (" letter".data) spaceLetterAt))
      (s.drop 7)
  else none

/-- `re.search` for the letter pattern: first matching position wins. -/
def searchContain : List Char → Option Char
  | [] => none
  | c :: rest =>
      match matchContainAt (c :: rest) with
      | some x => some x
      | none => searchContain rest

/-- `"single word" in q or "one word" in q`. -/
def wcPhrase1 (l : List Char) : Bool :=
  hasSubstr ("single word".data) l || hasSubstr ("one word".data) l

/-- `"two word" in q or "2 word" in q`. -/
def wcPhrase2 (l : List Char) : Bool :=
  hasSubstr ("two word".data) l || hasSubstr ("2 word".data) l

/-- `"three word" in q or "3 word" in q`. -/
def wcPhrase3 (l : List Char) : Bool :=
  hasSubstr ("three word".data) l || hasSubstr ("3 word".data) l

/-- The sparse filter record produced by the parser (`min_length` and
`max_length` are integers: `"shorter than 0"` produces `-1`). -/
structure FilterSet where
  word_count : Option Nat
  is_palindrome : Option Bool
  min_length : Option Int
  max_length : Option Int
  contains_character : Option Char
deriving DecidableEq, Repr

/-- `parse_natural_language_query(query)` from `src/nlp_parser.py`.
The word-count rules are an `if/elif` chain; all other rules are
independent `if`s evaluated in source order, a later write to the same
field overwriting an earlier one. -/
def parse_natural_language_query (query : String) : FilterSet :=
  let ql := pyLower query.data
  let wordCountF : Option Nat :=
    if wcPhrase1 ql then some 1
    else if wcPhrase2 ql then some 2
    else if wcPhrase3 ql then some 3
    else none
  let isPalindromeF : Option Bool :=
    if hasSubstr ("palindrom".data) ql then some true else none
  let min1 : Option Int := (searchLitNum ("longer than ".data) ql).map (fun (n : Nat) => (n : Int) + 1)
  let max1 : Option Int := (searchLitNum ("shorter than ".data) ql).map (fun (n : Nat) => (n : Int) - 1)
  let min2 : Option Int :=
    match searchLitNum ("at least ".data) ql with
    | some n => some (n : Int)
    | none => min1
  let max2 : Option Int :=
    match searchLitNum ("at most ".data) ql with
    | some n => some (n : Int)
    | none => max1
  let cc1 : Option Char := searchContain ql
  let cc2 : Option Char := if hasSubstr ("first vowel".data) ql then some 'a' else cc1
  let cc3 : Option Char := if hasSubstr ("last vowel".data) ql then some 'u' else cc2
  { word_count := wordCountF
    is_palindrome := isPalindromeF
    min_length := min2
    max_length := max2
    contains_character := cc3 }

/-- `validate_parsed_filters(filters)` from `src/nlp_parser.py`. -/
def validate_parsed_filters (f : FilterSet) : Option String :=
  match f.min_length, f.max_length with
  | some mn, some mx =>
      if mn > mx then
        some "Conflicting length constraints: min_length cannot be greater than max_length"
      else none
  | _, _ => none

/-! ### Spec-side definitions (for refinement-style claims) -/

/-- Following the spec's words for the palindrome check: the string
obtained from `s` by removing all ASCII space characters and folding
case equals its own reverse. -/
def palindromeCleanSpec (s : String) : Prop :=
  (s.data.filter (fun c => c ≠ ' ')).map Char.toLower =
    ((s.data.filter (fun c => c ≠ ' ')).map Char.toLower).reverse

/-- State-machine run counter: counts a new run at each non-whitespace
character not already inside a run. -/
def countRunsAux : Bool → List Char → Nat
  | _, [] => 0
  | inWord, c :: rest =>
      if pyIsSpace c then countRunsAux false rest
      else (if inWord then 0 else 1) + countRunsAux true rest

/-- Following the spec's words for `word_count`: the number of maximal
runs of non-whitespace characters. -/
def countRuns (l : List Char) : Nat := countRunsAux false l

/-! ### Helper lemmas -/

theorem splitAux_length (l : List Char) : ∀ acc : List Char,
    (splitAux l acc).length = (if acc.isEmpty then 0 else 1) + countRunsAux (!acc.isEmpty) l := by
  induction l with
  | nil => intro acc; cases acc <;> simp [splitAux, countRunsAux]
  | cons c rest ih =>
    intro acc
    by_cases hc : pyIsSpace c
    · cases acc with
      | nil => simpa [splitAux, hc, countRunsAux] using ih []
      | cons a as =>
        have := ih []
        simp [splitAux, hc, countRunsAux] at this ⊢
        omega
    · cases acc with
      | nil =>
        have := ih [c]
        simp [splitAux, hc, countRunsAux] at this ⊢
        omega
      | cons a as =>
        have := ih (c :: a :: as)
        simp [splitAux, hc, countRunsAux] at this ⊢
        omega

theorem freqUpdate_sum (m : List (Char × Nat)) (c : Char) :
    ((freqUpdate m c).map Prod.snd).sum = (m.map Prod.snd).sum + 1 := by
  induction m with
  | nil => simp [freqUpdate]
  | cons kv rest ih =>
    obtain ⟨k, v⟩ := kv
    by_cases h : k = c <;> simp [freqUpdate, h, ih] <;> omega

theorem freqUpdate_get (m : List (Char × Nat)) (c x : Char) :
    freqGet (freqUpdate m c) x = freqGet m x + (if x = c then 1 else 0) := by
  induction m with
  | nil =>
    rcases eq_or_ne x c with h | h
    · subst h; simp [freqUpdate, freqGet]
    · simp [freqUpdate, freqGet, h, (Ne.symm h)]
  | cons kv rest ih =>
    obtain ⟨k, v⟩ := kv
    rcases eq_or_ne k c with hkc | hkc
    · subst hkc
      rcases eq_or_ne k x with hkx | hkx
      · subst hkx; simp [freqUpdate, freqGet]
      · simp [freqUpdate, freqGet, hkx, (Ne.symm hkx)]
    · rcases eq_or_ne k x with hkx | hkx
      · subst hkx; simp [freqUpdate, freqGet, hkc, (Ne.symm hkc)]
      · simp [freqUpdate, freqGet, hkc, hkx, ih]

theorem freqUpdate_keys_mem (m : List (Char × Nat)) (c x : Char) :
    x ∈ (freqUpdate m c).map Prod.fst ↔ (x ∈ m.map Prod.fst ∨ x = c) := by
  induction m with
  | nil => simp [freqUpdate, eq_comm]
  | cons kv rest ih =>
    obtain ⟨k, v⟩ := kv
    by_cases h : k = c <;> simp [freqUpdate, h, ih] <;> tauto

theorem freqUpdate_keys_nodup (m : List (Char × Nat)) (c : Char)
    (h : (m.map Prod.fst).Nodup) : ((freqUpdate m c).map Prod.fst).Nodup := by
  induction m with
  | nil => simp [freqUpdate]
  | cons kv rest ih =>
    obtain ⟨k, v⟩ := kv
    simp only [List.map_cons, List.nodup_cons] at h
    by_cases hkc : k = c
    · subst hkc
      have hupd : freqUpdate ((k, v) :: rest) k = (k, v + 1) :: rest := by
        simp [freqUpdate]
      rw [hupd]
      simp only [List.map_cons, List.nodup_cons]
      exact h
    · simp only [freqUpdate, if_neg hkc, List.map_cons, List.nodup_cons]
      refine ⟨?_, ih h.2⟩
      rw [freqUpdate_keys_mem]
      rintro (hmem | hEq)
      · exact h.1 hmem
      · exact hkc hEq

theorem foldl_freq_sum (l : List Char) : ∀ m : List (Char × Nat),
    ((l.foldl freqUpdate m).map Prod.snd).sum = (m.map Prod.snd).sum + l.length := by
  induction l with
  | nil => intro m; simp
  | cons c rest ih =>
    intro m
    simp only [List.foldl_cons, ih (freqUpdate m c), freqUpdate_sum, List.length_cons]
    omega

theorem foldl_freq_get (l : List Char) : ∀ (m : List (Char × Nat)) (x : Char),
    freqGet (l.foldl freqUpdate m) x = freqGet m x + l.count x := by
  induction l with
  | nil => intro m x; simp
  | cons c rest ih =>
    intro m x
    simp only [List.foldl_cons, ih (freqUpdate m c) x, freqUpdate_get, List.count_cons]
    rcases eq_or_ne x c with h | h
    · subst h; simp; omega
    · simp [h, (Ne.symm h)]

theorem foldl_freq_keys_mem (l : List Char) : ∀ (m : List (Char × Nat)) (x : Char),
    x ∈ (l.foldl freqUpdate m).map Prod.fst ↔ (x ∈ m.map Prod.fst ∨ x ∈ l) := by
  induction l with
  | nil => intro m x; simp
  | cons c rest ih =>
    intro m x
    simp only [List.foldl_cons, ih (freqUpdate m c) x, freqUpdate_keys_mem, List.mem_cons]
    tauto

theorem foldl_freq_keys_nodup (l : List Char) : ∀ m : List (Char × Nat),
    (m.map Prod.fst).Nodup → ((l.foldl freqUpdate m).map Prod.fst).Nodup := by
  induction l with
  | nil => intro m h; simpa using h
  | cons c rest ih =>
    intro m h
    exact ih _ (freqUpdate_keys_nodup m c h)

/-! ### Claim theorems -/

/-- C1: for every string `s`, `analyze(s).is_palindrome` is true iff the
string obtained from `s` by removing all ASCII space characters and
folding case equals its own reverse; `"racecar"` and `"Race Car"` are
palindromic, `"race.car"` is not (punctuation is not normalized). -/
theorem C1_palindrome_normalization :
    (∀ s : String, ((analyze_string s).is_palindrome = true ↔ palindromeCleanSpec s))
    ∧ (analyze_string "racecar").is_palindrome = true
    ∧ (analyze_string "Race Car").is_palindrome = true
    ∧ (analyze_string "race.car").is_palindrome = false := by
  refine ⟨fun s => ?_, by decide, by decide, by decide⟩
  simp [analyze_string, palindromeCleanSpec]

/-- C2 counterexample: a query containing both `"single word"` and
`"three word"` gets `word_count = 1` from the earliest rule, not
`word_count = 3` from the later-evaluated rule as the claim states. -/
theorem C2_counterexample_later_rule_loses :
    hasSubstr ("single word".data)
        (pyLower ("all single word three word strings").data) = true
    ∧ hasSubstr ("three word".data)
        (pyLower ("all single word three word strings").data) = true
    ∧ (parse_natural_language_query "all single word three word strings").word_count = some 1
    ∧ ¬ (parse_natural_language_query "all single word three word strings").word_count
        = some 3 :=
  ⟨by decide, by decide, by decide, by decide⟩

/-- C2 (amended): the word-count phrases form an if/elif chain, so when
phrases for two different counts are present the EARLIEST rule in the
fixed order (1, then 2, then 3) determines `word_count`. -/
theorem C2_wordcount_earliest_rule_wins (q : String) :
    (wcPhrase1 (pyLower q.data) = true →
      (parse_natural_language_query q).word_count = some 1)
    ∧ (wcPhrase1 (pyLower q.data) = false → wcPhrase2 (pyLower q.data) = true →
      (parse_natural_language_query q).word_count = some 2)
    ∧ (wcPhrase1 (pyLower q.data) = false → wcPhrase2 (pyLower q.data) = false →
      wcPhrase3 (pyLower q.data) = true →
      (parse_natural_language_query q).word_count = some 3) := by
  have hwc : (parse_natural_language_query q).word_count =
      (if wcPhrase1 (pyLower q.data) then some 1
       else if wcPhrase2 (pyLower q.data) then some 2
       else if wcPhrase3 (pyLower q.data) then some 3
       else none) := rfl
  refine ⟨fun h1 => ?_, fun h1 h2 => ?_, fun h1 h2 h3 => ?_⟩
  · rw [hwc]; simp [h1]
  · rw [hwc]; simp [h1, h2]
  · rw [hwc]; simp [h1, h2, h3]

/-- C2 witness: the amended theorem applied at concrete queries. -/
theorem C2_wordcount_earliest_rule_wins_witness :
    (parse_natural_language_query "all single word three word strings").word_count = some 1
    ∧ (parse_natural_language_query "two word strings").word_count = some 2 :=
  ⟨(C2_wordcount_earliest_rule_wins "all single word three word strings").1 (by decide),
   (C2_wordcount_earliest_rule_wins "two word strings").2.1 (by decide) (by decide)⟩

/-- C3: `validateConflicts` reports a conflict iff both `min_length` and
`max_length` are present with `min_length > max_length`; no other field
combination produces a conflict; the two concrete examples behave as
stated. -/
theorem C3_validate_conflicts :
    (∀ f : FilterSet, (validate_parsed_filters f ≠ none ↔
        ∃ mn mx : Int, f.min_length = some mn ∧ f.max_length = some mx ∧ mx < mn))
    ∧ validate_parsed_filters ⟨none, none, some 20, some 5, none⟩ ≠ none
    ∧ validate_parsed_filters ⟨none, none, some 5, some 20, none⟩ = none := by
  refine ⟨fun f => ?_, by decide, by decide⟩
  obtain ⟨wc, ip, mn, mx, cc⟩ := f
  cases mn with
  | none => simp [validate_parsed_filters]
  | some a =>
    cases mx with
    | none => simp [validate_parsed_filters]
    | some b =>
      by_cases h : b < a
      · simp only [validate_parsed_filters, gt_iff_lt, if_pos h]
        simp [h]
      · simp only [validate_parsed_filters, gt_iff_lt, if_neg h]
        simp [h]

/-- C4: the character-frequency map is a complete partition of the
character occurrences of `s`: its values sum to the length of `s`, its
keys are exactly the distinct characters of `s` with no duplicates, and
each key maps to that character's occurrence count. -/
theorem C4_character_frequency_partition :
    ∀ s : String,
      (((analyze_string s).character_frequency_map.map Prod.snd)).sum
          = (analyze_string s).length
      ∧ ((analyze_string s).character_frequency_map.map Prod.fst).Nodup
      ∧ (∀ c : Char,
          c ∈ (analyze_string s).character_frequency_map.map Prod.fst ↔ c ∈ s.data)
      ∧ (∀ c : Char,
          freqGet ((analyze_string s).character_frequency_map) c = s.data.count c) := by
  intro s
  have hm : (analyze_string s).character_frequency_map = s.data.foldl freqUpdate [] := rfl
  have hl : (analyze_string s).length = s.data.length := rfl
  refine ⟨?_, ?_, ?_, ?_⟩
  · rw [hm, hl, foldl_freq_sum]; simp
  · rw [hm]; exact foldl_freq_keys_nodup s.data [] (by simp)
  · intro c; rw [hm, foldl_freq_keys_mem]; simp
  · intro c; rw [hm, foldl_freq_get]; simp [freqGet]

/-- C5 counterexample: in a query matching both `"longer than 3"` and
`"at least 9"`, the later-evaluated `"at least"` rule overwrites
`min_length`, so `min_length = 9` and not `3 + 1 = 4` as the claim's
universal statement requires. -/
theorem C5_counterexample_at_least_overrides :
    searchLitNum ("longer than ".data)
        (pyLower ("strings longer than 3 at least 9 characters").data) = some 3
    ∧ (parse_natural_language_query
        "strings longer than 3 at least 9 characters").min_length = some 9
    ∧ ¬ (parse_natural_language_query
        "strings longer than 3 at least 9 characters").min_length = some 4 :=
  ⟨by decide, by decide, by decide⟩

/-- C5 (amended): `"at least <N>"` always sets `min_length = N` and
`"at most <N>"` always sets `max_length = N`; `"longer than <N>"` sets
`min_length = N + 1` only when no `"at least"` pattern also matches, and
`"shorter than <N>"` sets `max_length = N - 1` (possibly negative) only
when no `"at most"` pattern also matches. -/
theorem C5_length_rules (q : String) (n : Nat) :
    (searchLitNum ("at least ".data) (pyLower q.data) = some n →
      (parse_natural_language_query q).min_length = some (n : Int))
    ∧ (searchLitNum ("at most ".data) (pyLower q.data) = some n →
      (parse_natural_language_query q).max_length = some (n : Int))
    ∧ (searchLitNum ("longer than ".data) (pyLower q.data) = some n →
      searchLitNum ("at least ".data) (pyLower q.data) = none →
      (parse_natural_language_query q).min_length = some ((n : Int) + 1))
    ∧ (searchLitNum ("shorter than ".data) (pyLower q.data) = some n →
      searchLitNum ("at most ".data) (pyLower q.data) = none →
      (parse_natural_language_query q).max_length = some ((n : Int) - 1)) := by
  have hmin : (parse_natural_language_query q).min_length =
      (match searchLitNum ("at least ".data) (pyLower q.data) with
       | some k => some (k : Int)
       | none => (searchLitNum ("longer than ".data) (pyLower q.data)).map
           (fun (k : Nat) => (k : Int) + 1)) := rfl
  have hmax : (parse_natural_language_query q).max_length =
      (match searchLitNum ("at most ".data) (pyLower q.data) with
       | some k => some (k : Int)
       | none => (searchLitNum ("shorter than ".data) (pyLower q.data)).map
           (fun (k : Nat) => (k : Int) - 1)) := rfl
  refine ⟨fun h => ?_, fun h => ?_, fun h h2 => ?_, fun h h2 => ?_⟩
  · rw [hmin, h]
  · rw [hmax, h]
  · rw [hmin, h2, h]; rfl
  · rw [hmax, h2, h]; rfl

/-- C5 witness: the amended rules applied at concrete queries, including
the spec's example `min_length = 11` and a negative `max_length`. -/
theorem C5_length_rules_witness :
    (parse_natural_language_query "strings longer than 10 characters").min_length = some 11
    ∧ (parse_natural_language_query "shorter than 0 strings").max_length = some (-1)
    ∧ (parse_natural_language_query "at least 4 character strings").min_length = some 4
    ∧ (parse_natural_language_query "at most 7 characters").max_length = some 7 := by
  refine ⟨?_, ?_, ?_, ?_⟩
  · have h := (C5_length_rules "strings longer than 10 characters" 10).2.2.1
      (by decide) (by decide)
    rw [h]; norm_num
  · have h := (C5_length_rules "shorter than 0 strings" 0).2.2.2
      (by decide) (by decide)
    rw [h]; norm_num
  · have h := (C5_length_rules "at least 4 character strings" 4).1 (by decide)
    rw [h]; norm_num
  · have h := (C5_length_rules "at most 7 characters" 7).2.1 (by decide)
    rw [h]; norm_num

/-- C6 counterexample: on the query
`"palindromic strings that contain the first vowel"` the letter-pattern
rule DOES match a literal letter — it captures `'f'` from `"first"` —
contrary to the claim that it does not match. -/
theorem C6_counterexample_letter_rule_matches :
    searchContain
        (pyLower ("palindromic strings that contain the first vowel").data) = some 'f'
    ∧ ¬ searchContain
        (pyLower ("palindromic strings that contain the first vowel").data) = none :=
  ⟨by decide, by decide⟩

/-- C6 (amended): the query still translates to exactly
`{is_palindrome: true, contains_character: 'a'}`, but because the
letter-pattern match (`'f'`, from `"first"`) is overwritten by the
later-evaluated fixed `"first vowel"` phrase; `"last vowel"` rules are
evaluated last and set `'u'`. -/
theorem C6_first_vowel_overwrites_letter_rule :
    parse_natural_language_query "palindromic strings that contain the first vowel" =
      { word_count := none, is_palindrome := some true, min_length := none,
        max_length := none, contains_character := some 'a' }
    ∧ searchContain
        (pyLower ("palindromic strings that contain the first vowel").data) = some 'f'
    ∧ (∀ q : String, (parse_natural_language_query q).contains_character =
        (if hasSubstr ("last vowel".data) (pyLower q.data) then some 'u'
         else if hasSubstr ("first vowel".data) (pyLower q.data) then some 'a'
         else searchContain (pyLower q.data))) :=
  ⟨by decide, by decide, fun q => rfl⟩

/-- C7: `analyze(s).word_count` equals the number of maximal runs of
non-whitespace characters in `s` (split on any run of whitespace,
leading/trailing whitespace discarded), with the spec's three examples. -/
theorem C7_word_count_maximal_runs :
    (∀ s : String, (analyze_string s).word_count = countRuns s.data)
    ∧ (analyze_string "hello world").word_count = 2
    ∧ (analyze_string "").word_count = 0
    ∧ (analyze_string "   ").word_count = 0 := by
  refine ⟨fun s => ?_, by decide, by decide, by decide⟩
  show (splitAux s.data []).length = countRunsAux false s.data
  rw [splitAux_length s.data []]
  simp

/-- C8: `analyze(s).length` is the raw character count of `s` and
`analyze(s).unique_character_count` is the number of distinct characters
of the raw `s` (case- and space-sensitive). -/
theorem C8_length_and_unique_count :
    ∀ s : String, (analyze_string s).length = s.data.length
      ∧ (analyze_string s).unique_characters = s.data.toFinset.card := by
  intro s
  refine ⟨rfl, ?_⟩
  show s.data.dedup.length = s.data.toFinset.card
  exact (List.card_toFinset s.data).symm

/-- C9: `analyze` is deterministic — identical inputs yield an
`AnalysisResult` identical in every field (length, palindrome flag,
unique-character count, word count, content hash, frequency map). -/
theorem C9_analyze_deterministic (s₁ s₂ : String) (h : s₁ = s₂) :
    analyze_string s₁ = analyze_string s₂
    ∧ (analyze_string s₁).length = (analyze_string s₂).length
    ∧ (analyze_string s₁).is_palindrome = (analyze_string s₂).is_palindrome
    ∧ (analyze_string s₁).unique_characters = (analyze_string s₂).unique_characters
    ∧ (analyze_string s₁).word_count = (analyze_string s₂).word_count
    ∧ (analyze_string s₁).sha256_hash = (analyze_string s₂).sha256_hash
    ∧ (analyze_string s₁).character_frequency_map
        = (analyze_string s₂).character_frequency_map := by
  subst h
  exact ⟨rfl, rfl, rfl, rfl, rfl, rfl, rfl⟩

/-- C9 witness: determinism instantiated at a concrete input. -/
theorem C9_analyze_deterministic_witness :
    analyze_string "level" = analyze_string "level"
    ∧ (analyze_string "level").length = (analyze_string "level").length
    ∧ (analyze_string "level").is_palindrome = (analyze_string "level").is_palindrome
    ∧ (analyze_string "level").unique_characters
        = (analyze_string "level").unique_characters
    ∧ (analyze_string "level").word_count = (analyze_string "level").word_count
    ∧ (analyze_string "level").sha256_hash = (analyze_string "level").sha256_hash
    ∧ (analyze_string "level").character_frequency_map
        = (analyze_string "level").character_frequency_map :=
  C9_analyze_deterministic "level" "level" rfl

/-- C10: the independently computed `unique_characters` always equals the
number of entries of `character_frequency_map`. -/
theorem C10_unique_count_eq_frequency_map_size :
    ∀ s : String,
      (analyze_string s).unique_characters
        = (analyze_string s).character_frequency_map.length := by
  intro s
  have hm : (analyze_string s).character_frequency_map = s.data.foldl freqUpdate [] := rfl
  have hkeys : ((s.data.foldl freqUpdate []).map Prod.fst).Nodup :=
    foldl_freq_keys_nodup s.data [] (by simp)
  have hset : ((s.data.foldl freqUpdate []).map Prod.fst).toFinset = s.data.toFinset := by
    ext x
    rw [List.mem_toFinset, List.mem_toFinset, foldl_freq_keys_mem]
    simp
  show s.data.dedup.length = (analyze_string s).character_frequency_map.length
  rw [hm]
  calc s.data.dedup.length = s.data.toFinset.card := (List.card_toFinset s.data).symm
    _ = ((s.data.foldl freqUpdate []).map Prod.fst).toFinset.card := by rw [hset]
    _ = ((s.data.foldl freqUpdate []).map Prod.fst).length :=
        List.toFinset_card_of_nodup hkeys
    _ = (s.data.foldl freqUpdate []).length := List.length_map _ _
